import Mathlib

/-!
Verification development for the Azure cost ingestion pipeline.

The definitions below are a shallow embedding, translated function by
function, of the repository's Python sources:
  app/models/cost_models.py   (CostRecord / DailyCostRecord and validators)
  app/services/cost_service.py (normalize_cost_response, preprocess_service_costs,
                                preprocess_daily_costs)
  app/db/operations.py        (get_or_create_billing_period,
                               get_or_create_azure_service, upsert_service_cost,
                               upsert_daily_cost)
  app/services/cost_tasks.py  (fetch_process_save)

Modelling conventions:
  * Python `Decimal` values produced by `validate_cost_amount` are represented
    exactly: a finite decimal quantized to 2 places is an `Int` number of
    hundredths ("cents").  A Python float input is represented by the decimal
    numeral of its shortest repr (the string that `str(v)` hands to
    `Decimal`), as `PyVal.num mant scale` meaning `mant / 10^scale`.
  * Exceptions are an explicit error type `Err`.  The per-record handler in
    the preprocessors is `except (ValueError, TypeError)`; pydantic v2 turns
    `ValueError` raised inside a field validator into a `ValidationError`
    (itself a `ValueError`) but lets `TypeError` and `decimal.InvalidOperation`
    propagate unchanged.
  * Datetimes used only as opaque billing-window bounds are `Int`.
  * Database tables are lists of rows; sessions/transactions are explicit
    state passing.  The SQLAlchemy error paths (connection failures) are not
    modelled; the claims under study quantify over successful executions.
-/

namespace AzureCostAnalyzer

/-- Raw Python values occurring in normalized cost rows.  `num mant scale`
is a float literal written as the decimal `mant / 10 ^ scale` (its shortest
repr, which is what `str` produces for such floats); `int` is a Python int,
`str` a string and `none` is `None`. -/
inductive PyVal where
  | int (n : Int)
  | num (mant : Int) (scale : Nat)
  | str (s : String)
  | none
deriving DecidableEq

/-- Exception kinds relevant to the pipeline.  `valueError` covers Python
`ValueError` and pydantic `ValidationError` (a `ValueError` subclass);
`invalidOperation` is `decimal.InvalidOperation` (an `ArithmeticError`, not a
`ValueError`); `dataProcessing` / `dataValidation` are the repository's
`DataProcessingError` / `DataValidationError`; `integrityError` is a database
unique-constraint violation; `unboundLocal` is Python `UnboundLocalError`. -/
inductive Err where
  | valueError
  | typeError
  | invalidOperation
  | dataProcessing
  | dataValidation
  | integrityError
  | unboundLocal
deriving DecidableEq

/-- Which exceptions the per-record `except (ValueError, TypeError)` clause of
`preprocess_service_costs` / `preprocess_daily_costs` catches. -/
def Err.caughtPerRecord : Err → Bool
  | .valueError => true
  | .typeError => true
  | _ => false

/-- A decimal literal as accepted by the `Decimal` constructor: a finite value
`mant / 10 ^ scale`, a quiet NaN, or a special value (signaling NaN or an
infinity) whose quantization raises `InvalidOperation`. -/
inductive DecLit where
  | finite (mant : Int) (scale : Nat)
  | nan
  | special
deriving DecidableEq

/-- A decimal already quantized to two fractional digits: either a finite
number of hundredths or a quiet NaN. -/
inductive PyDec where
  | fin (cents : Int)
  | nan
deriving DecidableEq

/-- Numeric value of a list of decimal digits read left to right. -/
def digitsVal (ds : List Nat) : Nat := ds.foldl (fun a d => 10 * a + d) 0

/-- Value of a decimal digit character. -/
def charVal (c : Char) : Nat := c.toNat - 48

/-- Split a character list at the first exponent marker, if any. -/
def splitAtExp (cs : List Char) : List Char × Option (List Char) :=
  match cs.span (fun c => !(c == 'e' || c == 'E')) with
  | (pre, []) => (pre, Option.none)
  | (pre, _ :: post) => (pre, some post)

/-- Parse an optional leading sign; returns (isNegative, rest). -/
def parseSign (cs : List Char) : Bool × List Char :=
  match cs with
  | '+' :: r => (false, r)
  | '-' :: r => (true, r)
  | r => (false, r)

/-- Parse the exponent part of a decimal numeral: optional sign followed by a
nonempty run of digits. -/
def parseExp (cs : List Char) : Option Int :=
  let (neg, ds) := parseSign cs
  if ds ≠ [] ∧ ds.all Char.isDigit then
    let v : Int := Int.ofNat (digitsVal (ds.map charVal))
    some (if neg then -v else v)
  else Option.none

/-- Parse the mantissa of a decimal numeral: digits with an optional single
decimal point, at least one digit overall.  Returns (coefficient, scale). -/
def parseMantissa (cs : List Char) : Option (Nat × Nat) :=
  match cs.span (fun c => !(c == '.')) with
  | (ip, []) =>
    if ip ≠ [] ∧ ip.all Char.isDigit then some (digitsVal (ip.map charVal), 0)
    else Option.none
  | (ip, _ :: fp) =>
    if (ip ≠ [] ∨ fp ≠ []) ∧ ip.all Char.isDigit ∧ fp.all Char.isDigit then
      some (digitsVal ((ip ++ fp).map charVal), fp.length)
    else Option.none

/-- Parse a string the way the Python `Decimal` constructor does (modulo the
grammar extras the pipeline never meets: underscores, surrounding whitespace
and NaN diagnostic payloads are not modelled).  Accepts an optional sign, a
digit string with optional point, an optional exponent, and the special forms
NaN / sNaN / Inf / Infinity case-insensitively. -/
def parseDec (s : String) : Option DecLit :=
  let (neg, rest) := parseSign s.data
  let lower := rest.map Char.toLower
  if lower = "nan".data then some .nan
  else if lower = "snan".data ∨ lower = "inf".data ∨ lower = "infinity".data then
    some .special
  else
    let (mantPart, expPart) := splitAtExp rest
    match parseMantissa mantPart with
    | Option.none => Option.none
    | some (m0, s0) =>
      let m : Int := if neg then -(Int.ofNat m0) else Int.ofNat m0
      match expPart with
      | Option.none => some (.finite m s0)
      | some ecs =>
        match parseExp ecs with
        | Option.none => Option.none
        | some x =>
          if s0 ≤ x then some (.finite (m * (10 : Int) ^ (x - s0).toNat) 0)
          else some (.finite m (s0 - x.toNat))

/-- Round `mant / 10 ^ scale` to an integer count of hundredths using
round-half-even on the magnitude (the default decimal context's
ROUND_HALF_EVEN). -/
def halfEvenCents (mant : Int) (scale : Nat) : Int :=
  if scale ≤ 2 then mant * (10 : Int) ^ (2 - scale)
  else
    let d := (10 : Nat) ^ (scale - 2)
    let n := mant.natAbs
    let q := n / d
    let r := n % d
    let q2 := if 2 * r < d then q
      else if d < 2 * r then q + 1
      else if q % 2 = 0 then q else q + 1
    if mant < 0 then -(Int.ofNat q2) else Int.ofNat q2

/-- `Decimal.quantize(Decimal("0.01"))` under the default context: NaN is
propagated quietly, signaling NaN and infinities raise `InvalidOperation`, and
a finite result whose coefficient would exceed the 28-digit context precision
raises `InvalidOperation`. -/
def quantize2 : DecLit → Except Err PyDec
  | .nan => .ok .nan
  | .special => .error .invalidOperation
  | .finite m s =>
    let c := halfEvenCents m s
    if c.natAbs < 10 ^ 28 then .ok (.fin c) else .error .invalidOperation

/-- Coercion performed by `validate_cost_amount` before quantizing: ints and
floats go through `Decimal(str(v))`, strings through `Decimal(v)` (raising
`InvalidOperation` on malformed numerals), and `None` raises `TypeError`. -/
def decLitOf : PyVal → Except Err DecLit
  | .int n => .ok (.finite n 0)
  | .num m s => .ok (.finite m s)
  | .str s =>
    match parseDec s with
    | some d => .ok d
    | Option.none => .error .invalidOperation
  | .none => .error .typeError

/-- `validate_cost_amount` (app/models/cost_models.py): coerce to `Decimal`
and quantize to two fractional digits. -/
def validate_cost_amount (v : PyVal) : Except Err PyDec := do
  let d ← decLitOf v
  quantize2 d

/-- Python `str.upper` restricted to ASCII letters (the pipeline only meets
currency codes). -/
def pyUpper (s : String) : String := ⟨s.data.map Char.toUpper⟩

/-- Python `str.strip`: drop whitespace from both ends. -/
def pyStrip (s : String) : String :=
  ⟨((s.data.dropWhile Char.isWhitespace).reverse.dropWhile
      Char.isWhitespace).reverse⟩

/-- `validate_currency_code` (app/models/cost_models.py): uppercase. -/
def validate_currency_code (s : String) : String := pyUpper s

/-- `CostRecord.validate_service_name`: `v.strip() if v else "Unknown"` —
the truthiness test happens before stripping, so only the already-empty
string is replaced by the sentinel. -/
def validate_service_name (v : String) : String :=
  if v = "" then "Unknown" else pyStrip v

/-- The pydantic `cost` field: run the before-validator
`validate_cost_amount`, then the `ge=0` field constraint.  A constraint
failure or NaN yields a `ValidationError` (`valueError`); coercion failures
keep their own kind. -/
def costField (v : PyVal) : Except Err Int :=
  match validate_cost_amount v with
  | .error e => .error e
  | .ok .nan => .error .valueError
  | .ok (.fin c) => if 0 ≤ c then .ok c else .error .valueError

/-- The pydantic `currency` field: the declared type `str` rejects non-string
values (collected as a `ValidationError`), then the validator uppercases. -/
def currencyField (v : PyVal) : Except Err String :=
  match v with
  | .str s => .ok (validate_currency_code s)
  | _ => .error .valueError

/-- The pydantic `service_name` field: type `str`, then
`validate_service_name`. -/
def serviceNameField (v : PyVal) : Except Err String :=
  match v with
  | .str s => .ok (validate_service_name s)
  | _ => .error .valueError

/-- Validated per-service cost record (`CostRecord` in cost_models.py).
`cost` is the quantized amount in hundredths. -/
structure CostRecord where
  service_name : String
  cost : Int
  currency : String
  billing_period_start : Int
  billing_period_end : Int
deriving DecidableEq

/-- Construction `CostRecord(service_name=…, cost=…, currency=…, …)` under
pydantic v2 semantics: every field is validated; a `ValueError` raised in a
validator is collected into the resulting `ValidationError` (kind
`valueError`), while a `TypeError` or `decimal.InvalidOperation` escaping the
cost validator propagates as itself. -/
def mkCostRecord (nameV costV curV : PyVal) (ps pe : Int) :
    Except Err CostRecord :=
  match costField costV with
  | .error e => if e = .valueError then .error .valueError else .error e
  | .ok cents =>
    match serviceNameField nameV, currencyField curV with
    | .ok n, .ok cur =>
      .ok { service_name := n, cost := cents, currency := cur,
            billing_period_start := ps, billing_period_end := pe }
    | _, _ => .error .valueError

/-- A normalized row: the Python dict produced by `dict(zip(columns, row))`,
as an insertion-ordered association list whose keys are unique. -/
abbrev Dict := List (String × PyVal)

/-- `raw_cost.get(key, default)`. -/
def dictGet (d : Dict) (k : String) (dflt : PyVal) : PyVal :=
  match List.lookup k d with
  | some v => v
  | Option.none => dflt

/-- The body of the `preprocess_service_costs` loop for one raw row: build a
`CostRecord` from the row with the source's defaults (`"Unknown"`, `0`,
`"INR"`). -/
def serviceRecOf (d : Dict) (ps pe : Int) : Except Err CostRecord :=
  mkCostRecord (dictGet d "ServiceName" (.str "Unknown"))
    (dictGet d "Cost" (.int 0))
    (dictGet d "Currency" (.str "INR")) ps pe

/-- The preprocessing loop: records failing with `ValueError` / `TypeError`
are skipped, any other exception aborts the whole batch. -/
def collectRecords {α : Type} (f : Dict → Except Err α) :
    List Dict → Except Err (List α)
  | [] => .ok []
  | d :: rest =>
    match f d with
    | .ok r =>
      match collectRecords f rest with
      | .ok rs => .ok (r :: rs)
      | .error e => .error e
    | .error e =>
      if e.caughtPerRecord then collectRecords f rest else .error e

/-- `preprocess_service_costs` (app/services/cost_service.py): run the loop,
then raise `DataValidationError` when the input was non-empty but no record
survived. -/
def preprocess_service_costs (raw : List Dict) (ps pe : Int) :
    Except Err (List CostRecord) :=
  match collectRecords (fun d => serviceRecOf d ps pe) raw with
  | .error e => .error e
  | .ok recs =>
    if recs = [] ∧ raw ≠ [] then .error .dataValidation else .ok recs

/-! Daily pipeline: usage-date parsing and `preprocess_daily_costs`. -/

/-- Left-pad a numeral with zeros to a given width. -/
def padZeros (t : String) (w : Nat) : String :=
  ⟨List.replicate (w - t.data.length) '0' ++ t.data⟩

/-- Python `str(v)` for the values the daily preprocessor can meet.  A float
literal renders with a decimal point (`str(20240115.0) = "20240115.0"`). -/
def pyStr : PyVal → String
  | .int n => toString n
  | .num m s =>
    let sign := if m < 0 then "-" else ""
    let n := m.natAbs
    if s = 0 then sign ++ toString n ++ ".0"
    else sign ++ toString (n / 10 ^ s) ++ "." ++ padZeros (toString (n % 10 ^ s)) s
  | .str s => s
  | .none => "None"

/-- The `%m` component of CPython strptime, regex `1[0-2]|0[1-9]|[1-9]`:
candidate (value, rest) pairs in alternation order. -/
def monthAlts (cs : List Char) : List (Nat × List Char) :=
  (match cs with
   | c1 :: c2 :: rest =>
     if c1 = '1' ∧ (c2 = '0' ∨ c2 = '1' ∨ c2 = '2') then [(10 + charVal c2, rest)]
     else []
   | _ => []) ++
  (match cs with
   | c1 :: c2 :: rest =>
     if c1 = '0' ∧ c2.isDigit ∧ c2 ≠ '0' then [(charVal c2, rest)] else []
   | _ => []) ++
  (match cs with
   | c1 :: rest => if c1.isDigit ∧ c1 ≠ '0' then [(charVal c1, rest)] else []
   | _ => [])

/-- The `%d` component of CPython strptime, regex `3[01]|[12]\d|0[1-9]|[1-9]`. -/
def dayAlts (cs : List Char) : List (Nat × List Char) :=
  (match cs with
   | c1 :: c2 :: rest =>
     if c1 = '3' ∧ (c2 = '0' ∨ c2 = '1') then [(30 + charVal c2, rest)] else []
   | _ => []) ++
  (match cs with
   | c1 :: c2 :: rest =>
     if (c1 = '1' ∨ c1 = '2') ∧ c2.isDigit then [(10 * charVal c1 + charVal c2, rest)]
     else []
   | _ => []) ++
  (match cs with
   | c1 :: c2 :: rest =>
     if c1 = '0' ∧ c2.isDigit ∧ c2 ≠ '0' then [(charVal c2, rest)] else []
   | _ => []) ++
  (match cs with
   | c1 :: rest => if c1.isDigit ∧ c1 ≠ '0' then [(charVal c1, rest)] else []
   | _ => [])

/-- The strptime pattern `%Y%m%d`: exactly four year digits, then month and
day with the backtracking order of the underlying regex — the first
month/day alternative pair that matches wins, leftover input notwithstanding
(CPython checks for unconsumed characters afterwards). -/
def matchYmd (cs : List Char) : Option (Nat × Nat × Nat × List Char) :=
  match cs with
  | a :: b :: c :: d :: rest =>
    if a.isDigit ∧ b.isDigit ∧ c.isDigit ∧ d.isDigit then
      let y := 1000 * charVal a + 100 * charVal b + 10 * charVal c + charVal d
      (monthAlts rest).findSome? (fun mr =>
        ((dayAlts mr.2).head?).map (fun dr => (y, mr.1, dr.1, dr.2)))
    else Option.none
  | _ => Option.none

/-- Gregorian leap year. -/
def leapYear (y : Nat) : Bool := (y % 4 == 0 && y % 100 != 0) || y % 400 == 0

/-- Days in a month, as the `datetime` constructor enforces. -/
def daysInMonth (y m : Nat) : Nat :=
  if m = 2 then (if leapYear y then 29 else 28)
  else if m = 4 ∨ m = 6 ∨ m = 9 ∨ m = 11 then 30 else 31

/-- A calendar date as produced by `datetime.strptime(s, "%Y%m%d")`. -/
structure Ymd where
  year : Nat
  month : Nat
  day : Nat
deriving DecidableEq

/-- `datetime.strptime(s, "%Y%m%d")`: the regex must consume the whole
string, and the matched numbers must form a valid `datetime`
(year ≥ 1; the regex itself bounds month ≤ 12 and day ≤ 31). -/
def strptimeYmd (s : String) : Option Ymd :=
  match matchYmd s.data with
  | some (y, m, d, []) =>
    if 1 ≤ y ∧ d ≤ daysInMonth y m then some ⟨y, m, d⟩ else Option.none
  | _ => Option.none

/-- Validated daily cost record (`DailyCostRecord` in cost_models.py).  Note
the model declares `service_name : str` with no default. -/
structure DailyCostRecord where
  service_name : String
  usage_date : Ymd
  cost : Int
  currency : String
  billing_period_start : Int
  billing_period_end : Int
deriving DecidableEq

/-- Construction `DailyCostRecord(usage_date=…, cost=…, currency=…, …)` as
written in `preprocess_daily_costs`: the required `service_name` field is
never passed, so pydantic always reports a missing-field `ValidationError`;
the only other outcome is an exception escaping the cost validator
(`TypeError` / `InvalidOperation`), which propagates as itself. -/
def mkDailyCostRecord (_ud : Ymd) (costV _curV : PyVal) (_ps _pe : Int) :
    Except Err DailyCostRecord :=
  match costField costV with
  | .error e => if e = .valueError then .error .valueError else .error e
  | .ok _ => .error .valueError

/-- The body of the `preprocess_daily_costs` loop for one raw row: parse the
`UsageDate` field (default `0`) with strptime — a parse failure is a
`ValueError` — then construct the record. -/
def dailyRecOf (d : Dict) (ps pe : Int) : Except Err DailyCostRecord :=
  match strptimeYmd (pyStr (dictGet d "UsageDate" (.int 0))) with
  | Option.none => .error .valueError
  | some ud =>
    mkDailyCostRecord ud (dictGet d "Cost" (.int 0))
      (dictGet d "Currency" (.str "INR")) ps pe

/-- `preprocess_daily_costs` (app/services/cost_service.py). -/
def preprocess_daily_costs (raw : List Dict) (ps pe : Int) :
    Except Err (List DailyCostRecord) :=
  match collectRecords (fun d => dailyRecOf d ps pe) raw with
  | .error e => .error e
  | .ok recs =>
    if recs = [] ∧ raw ≠ [] then .error .dataValidation else .ok recs

/-! Normalizer. -/

/-- The opaque Azure query result consumed by `normalize_cost_response`:
`columns = none` models an object lacking the `columns` attribute (the
`AttributeError` path); column entries are already the `.name` strings. -/
structure QueryResult where
  columns : Option (List String)
  rows : List (List PyVal)

/-- Python dict insertion: an existing key is overwritten in place, a new key
is appended. -/
def dictInsert (d : Dict) (k : String) (v : PyVal) : Dict :=
  if d.any (fun kv => kv.1 == k) then
    d.map (fun kv => if kv.1 == k then (k, v) else kv)
  else d ++ [(k, v)]

/-- `dict(pairs)`: fold insertion over the pairs in order. -/
def dictOfPairs (ps : List (String × PyVal)) : Dict :=
  ps.foldl (fun d kv => dictInsert d kv.1 kv.2) []

/-- `normalize_cost_response` (app/services/cost_service.py): a missing
`columns` attribute raises `AttributeError`, re-raised as
`DataProcessingError`; otherwise each row becomes `dict(zip(columns, row))` —
`zip` truncates to the shorter sequence, so an arity mismatch raises
nothing. -/
def normalize_cost_response (r : QueryResult) : Except Err (List Dict) :=
  match r.columns with
  | Option.none => .error .dataProcessing
  | some cols => .ok (r.rows.map (fun row => dictOfPairs (cols.zip row)))

/-! Persistence layer (app/db/operations.py). -/

/-- A `billing_period` row. -/
structure BillingPeriod where
  id : Nat
  start_date : Int
  end_date : Int
  is_current : Bool
deriving DecidableEq

/-- The `billing_period` table plus the autoincrement counter. -/
structure PeriodTable where
  periods : List BillingPeriod
  nextId : Nat
deriving DecidableEq

/-- The WHERE clause of the period lookup: exact `(start_date, end_date)`
match. -/
def periodKeyMatches (s e : Int) (p : BillingPeriod) : Bool :=
  p.start_date == s && p.end_date == e

/-- The `UPDATE billing_period SET is_current = false WHERE is_current` step:
rows already stale are untouched, so applying it to every row is the same
state change. -/
def clearFlag (q : BillingPeriod) : BillingPeriod := { q with is_current := false }

/-- Net effect on one row of clear-everywhere followed by marking the row
with id `pid` current. -/
def setFlag (pid : Nat) (q : BillingPeriod) : BillingPeriod :=
  if q.id == pid then { q with is_current := true }
  else { q with is_current := false }

/-- `get_or_create_billing_period`: look up the window; if found and already
current return it unchanged; if found but stale, clear `is_current`
everywhere and set it on the found row; if absent, clear `is_current`
everywhere and insert a new current row.  Returns the updated table and the
period id. -/
def get_or_create_billing_period (st : PeriodTable) (s e : Int) :
    PeriodTable × Nat :=
  match st.periods.find? (periodKeyMatches s e) with
  | some p =>
    if p.is_current then (st, p.id)
    else ({ st with periods := st.periods.map (setFlag p.id) }, p.id)
  | Option.none =>
    ({ periods := st.periods.map clearFlag ++
        [{ id := st.nextId, start_date := s, end_date := e, is_current := true }],
       nextId := st.nextId + 1 }, st.nextId)

/-- An `azure_service` row. -/
structure AzureService where
  id : Nat
  name : String
deriving DecidableEq

/-- The `azure_service` table plus the autoincrement counter. -/
structure ServiceTable where
  services : List AzureService
  nextId : Nat
deriving DecidableEq

/-- `get_or_create_azure_service`: select by name, return if found; else add
and flush.  `concurrent` are rows committed by concurrent transactions that
become visible at the flush; the unique constraint on `name` then makes the
flush fail, and — the function having no exception handler — the
`IntegrityError` propagates. -/
def get_or_create_azure_service (tbl : ServiceTable)
    (concurrent : List AzureService) (service_name : String) :
    Except Err (ServiceTable × AzureService) :=
  match tbl.services.find? (fun s => s.name == service_name) with
  | some s => .ok (tbl, s)
  | Option.none =>
    let visible := tbl.services ++ concurrent
    if visible.any (fun s => s.name == service_name) then .error .integrityError
    else
      .ok ({ services := visible ++ [{ id := tbl.nextId, name := service_name }],
             nextId := tbl.nextId + 1 },
           { id := tbl.nextId, name := service_name })

/-- A `service_cost` fact row (natural key `(service_id, billing_period_id)`). -/
structure ServiceCost where
  service_id : Nat
  billing_period_id : Nat
  cost_amount : Int
  currency_code : String
deriving DecidableEq

/-- The natural-key WHERE clause of `upsert_service_cost`. -/
def serviceKeyMatches (sid pid : Nat) (r : ServiceCost) : Bool :=
  r.service_id == sid && r.billing_period_id == pid

/-- `upsert_service_cost`: overwrite `cost_amount` / `currency_code` on the
first row matching the natural key, else append a new row. -/
def upsert_service_cost (tbl : List ServiceCost) (sid pid : Nat)
    (amt : Int) (cur : String) : List ServiceCost :=
  match tbl with
  | [] => [{ service_id := sid, billing_period_id := pid,
             cost_amount := amt, currency_code := cur }]
  | r :: rest =>
    if serviceKeyMatches sid pid r then
      { r with cost_amount := amt, currency_code := cur } :: rest
    else r :: upsert_service_cost rest sid pid amt cur

/-- A `daily_cost` fact row (natural key `(usage_date, billing_period_id)`). -/
structure DailyCost where
  billing_period_id : Nat
  usage_date : Ymd
  cost_amount : Int
  currency_code : String
deriving DecidableEq

/-- The natural-key WHERE clause of `upsert_daily_cost`. -/
def dailyKeyMatches (ud : Ymd) (pid : Nat) (r : DailyCost) : Bool :=
  r.usage_date == ud && r.billing_period_id == pid

/-- `upsert_daily_cost`: analogous to `upsert_service_cost`. -/
def upsert_daily_cost (tbl : List DailyCost) (pid : Nat) (ud : Ymd)
    (amt : Int) (cur : String) : List DailyCost :=
  match tbl with
  | [] => [{ billing_period_id := pid, usage_date := ud,
             cost_amount := amt, currency_code := cur }]
  | r :: rest =>
    if dailyKeyMatches ud pid r then
      { r with cost_amount := amt, currency_code := cur } :: rest
    else r :: upsert_daily_cost rest pid ud amt cur

/-! Orchestrator (app/services/cost_tasks.py). -/

/-- `fetch_process_save`: the first `try` block runs fetch → normalize →
preprocess and catches only `DataProcessingError`, merely logging it; on that
path `billing_start` / `processed_records` are left unbound, the second block
and the final `return` reference them, and the run dies with
`UnboundLocalError` instead.  Any other exception of the first block
propagates as itself.  On the success path the period is resolved, the save
callback runs, and the triple `(processed_records, billing_period.id,
saved_count)` is returned.  The fetch is abstracted as its result, the
billing window (`get_current_month_period`, clock-dependent) as `ps`/`pe`,
and the save callback — which returns the number of records written — as a
pure function, database failures being outside the claims modelled here. -/
def fetch_process_save {α : Type} (fetchResult : Except Err QueryResult)
    (preprocessF : List Dict → Int → Int → Except Err α) (ps pe : Int)
    (saveF : α → Nat) (db : PeriodTable) : Except Err (α × Nat × Nat) :=
  let step1 : Except Err α := do
    let raw ← fetchResult
    let normalized ← normalize_cost_response raw
    preprocessF normalized ps pe
  match step1 with
  | .ok records =>
    let pid := (get_or_create_billing_period db ps pe).2
    .ok (records, pid, saveF records)
  | .error .dataProcessing => .error .unboundLocal
  | .error e => .error e

/-! Specification predicates used by the claim theorems. -/

/-- Database-level invariant of the `billing_period` table: the primary key
and the `(start_date, end_date)` unique constraint of `db/models.py` hold, at
most one row is current, and all ids are below the autoincrement counter. -/
abbrev PeriodInv (st : PeriodTable) : Prop :=
  (∀ p ∈ st.periods, ∀ q ∈ st.periods, p.id = q.id → p = q) ∧
  (∀ p ∈ st.periods, ∀ q ∈ st.periods,
    p.start_date = q.start_date → p.end_date = q.end_date → p = q) ∧
  (∀ p ∈ st.periods, ∀ q ∈ st.periods,
    p.is_current = true → q.is_current = true → p = q) ∧
  (∀ p ∈ st.periods, p.id < st.nextId)

/-- Exactly one period is current, and it is the one with window `(s, e)`. -/
abbrev UniqueCurrentFor (st : PeriodTable) (s e : Int) : Prop :=
  ∃ p ∈ st.periods, p.is_current = true ∧ p.start_date = s ∧ p.end_date = e ∧
    ∀ q ∈ st.periods, q.is_current = true → q = p

/-- Run a sequence of `get_or_create_billing_period` calls. -/
def runPeriodCalls (st : PeriodTable) (ws : List (Int × Int)) : PeriodTable :=
  ws.foldl (fun a w => (get_or_create_billing_period a w.1 w.2).1) st

/-- Number of `service_cost` rows with the given natural key. -/
def keyCountS (tbl : List ServiceCost) (sid pid : Nat) : Nat :=
  (tbl.filter (serviceKeyMatches sid pid)).length

/-- First `service_cost` row with the given natural key. -/
def lookupS (tbl : List ServiceCost) (sid pid : Nat) : Option ServiceCost :=
  tbl.find? (serviceKeyMatches sid pid)

/-- Number of `daily_cost` rows with the given natural key. -/
def keyCountD (tbl : List DailyCost) (ud : Ymd) (pid : Nat) : Nat :=
  (tbl.filter (dailyKeyMatches ud pid)).length

/-- First `daily_cost` row with the given natural key. -/
def lookupD (tbl : List DailyCost) (ud : Ymd) (pid : Nat) : Option DailyCost :=
  tbl.find? (dailyKeyMatches ud pid)

example : validate_cost_amount (.num 12345 3) = .ok (.fin 1234) := rfl
example : validate_cost_amount (.num 12344 3) = .ok (.fin 1234) := rfl
example : validate_cost_amount (.str "7") = .ok (.fin 700) := rfl
example : validate_cost_amount (.str "abc") = .error .invalidOperation := rfl
example : validate_cost_amount .none = .error .typeError := rfl
example : validate_cost_amount (.num (-500) 2) = .ok (.fin (-500)) := rfl
example :
    serviceRecOf [("ServiceName", .str "VM"), ("Cost", .num 105 1),
      ("Currency", .str "usd")] 0 1 =
    .ok { service_name := "VM", cost := 1050, currency := "USD",
          billing_period_start := 0, billing_period_end := 1 } := rfl

example : strptimeYmd "20240115" = some ⟨2024, 1, 15⟩ := rfl
example : strptimeYmd "2024011" = some ⟨2024, 1, 1⟩ := rfl
example : strptimeYmd "202411" = some ⟨2024, 1, 1⟩ := rfl
example : strptimeYmd "0" = Option.none := rfl
example : strptimeYmd "20240230" = Option.none := rfl
example : strptimeYmd "20240229" = some ⟨2024, 2, 29⟩ := rfl
example : pyStr (.int 20240115) = "20240115" := rfl

example :
    preprocess_daily_costs [[("UsageDate", .int 20240115), ("Cost", .int 5),
      ("Currency", .str "inr")]] 0 1 = .error .dataValidation := rfl

example :
    preprocess_service_costs [[("Cost", .str "abc")],
      [("ServiceName", .str "VM"), ("Cost", .int 1), ("Currency", .str "USD")]]
      0 1 = .error .invalidOperation := rfl

example :
    normalize_cost_response ⟨some ["a", "b"], [[.int 1]]⟩ =
    .ok [[("a", .int 1)]] := rfl

example :
    get_or_create_azure_service ⟨[], 0⟩ [⟨0, "VM"⟩] "VM" =
    .error .integrityError := rfl

example :
    fetch_process_save (α := List CostRecord) (.ok ⟨Option.none, []⟩)
      preprocess_service_costs 0 1 List.length ⟨[], 0⟩ =
    .error .unboundLocal := rfl

/-! Helper lemmas for the billing-period reconciler. -/

theorem find?_period_some {l : List BillingPeriod} {s e : Int} {p : BillingPeriod}
    (h : l.find? (periodKeyMatches s e) = some p) :
    p ∈ l ∧ p.start_date = s ∧ p.end_date = e := by
  have h2 := List.find?_some h
  simp only [periodKeyMatches, Bool.and_eq_true, beq_iff_eq] at h2
  exact ⟨List.mem_of_find?_eq_some h, h2.1, h2.2⟩

theorem find?_period_none {l : List BillingPeriod} {s e : Int}
    (h : l.find? (periodKeyMatches s e) = Option.none) :
    ∀ p ∈ l, ¬(p.start_date = s ∧ p.end_date = e) := by
  intro p hp hpe
  have h2 := List.find?_eq_none.mp h p hp
  simp only [periodKeyMatches, Bool.and_eq_true, beq_iff_eq] at h2
  exact h2 hpe

theorem clearFlag_id (q : BillingPeriod) : (clearFlag q).id = q.id := rfl

theorem clearFlag_start (q : BillingPeriod) :
    (clearFlag q).start_date = q.start_date := rfl

theorem clearFlag_end (q : BillingPeriod) :
    (clearFlag q).end_date = q.end_date := rfl

theorem clearFlag_current (q : BillingPeriod) :
    (clearFlag q).is_current = false := rfl

theorem setFlag_id (pid : Nat) (q : BillingPeriod) :
    (setFlag pid q).id = q.id := by
  unfold setFlag
  split <;> rfl

theorem setFlag_start (pid : Nat) (q : BillingPeriod) :
    (setFlag pid q).start_date = q.start_date := by
  unfold setFlag
  split <;> rfl

theorem setFlag_end (pid : Nat) (q : BillingPeriod) :
    (setFlag pid q).end_date = q.end_date := by
  unfold setFlag
  split <;> rfl

theorem setFlag_current_iff (pid : Nat) (q : BillingPeriod) :
    (setFlag pid q).is_current = true ↔ q.id = pid := by
  unfold setFlag
  by_cases h : q.id = pid <;> simp [h]

theorem period_step (st : PeriodTable) (s e : Int) (h : PeriodInv st) :
    PeriodInv (get_or_create_billing_period st s e).1 ∧
    UniqueCurrentFor (get_or_create_billing_period st s e).1 s e := by
  obtain ⟨hid, hwin, hcur, hlt⟩ := h
  rcases hf : st.periods.find? (periodKeyMatches s e) with _ | p
  · -- not found: clear every row, append a fresh current row
    have hnomatch := find?_period_none hf
    simp only [get_or_create_billing_period, hf]
    have hpost : UniqueCurrentFor
        ⟨st.periods.map clearFlag ++
          [{ id := st.nextId, start_date := s, end_date := e, is_current := true }],
         st.nextId + 1⟩ s e := by
      refine ⟨⟨st.nextId, s, e, true⟩, ?_, rfl, rfl, rfl, ?_⟩
      · exact List.mem_append.mpr (Or.inr (List.mem_singleton.mpr rfl))
      · intro q hq hqc
        rcases List.mem_append.mp hq with hq | hq
        · rcases List.mem_map.mp hq with ⟨q0, _, rfl⟩
          rw [clearFlag_current] at hqc
          exact absurd hqc Bool.false_ne_true
        · exact List.mem_singleton.mp hq
    refine ⟨⟨?_, ?_, ?_, ?_⟩, hpost⟩
    · intro a ha b hb hab
      rcases List.mem_append.mp ha with ha | ha <;>
        rcases List.mem_append.mp hb with hb | hb
      · rcases List.mem_map.mp ha with ⟨a0, ha0, rfl⟩
        rcases List.mem_map.mp hb with ⟨b0, hb0, rfl⟩
        rw [clearFlag_id, clearFlag_id] at hab
        rw [hid a0 ha0 b0 hb0 hab]
      · rcases List.mem_map.mp ha with ⟨a0, ha0, rfl⟩
        rw [List.mem_singleton.mp hb] at hab
        rw [clearFlag_id] at hab
        exact absurd hab (Nat.ne_of_lt (hlt a0 ha0))
      · rcases List.mem_map.mp hb with ⟨b0, hb0, rfl⟩
        rw [List.mem_singleton.mp ha] at hab
        rw [clearFlag_id] at hab
        exact absurd hab.symm (Nat.ne_of_lt (hlt b0 hb0))
      · rw [List.mem_singleton.mp ha, List.mem_singleton.mp hb]
    · intro a ha b hb hab1 hab2
      rcases List.mem_append.mp ha with ha | ha <;>
        rcases List.mem_append.mp hb with hb | hb
      · rcases List.mem_map.mp ha with ⟨a0, ha0, rfl⟩
        rcases List.mem_map.mp hb with ⟨b0, hb0, rfl⟩
        rw [clearFlag_start, clearFlag_start] at hab1
        rw [clearFlag_end, clearFlag_end] at hab2
        rw [hwin a0 ha0 b0 hb0 hab1 hab2]
      · rcases List.mem_map.mp ha with ⟨a0, ha0, rfl⟩
        rw [List.mem_singleton.mp hb] at hab1 hab2
        rw [clearFlag_start] at hab1
        rw [clearFlag_end] at hab2
        exact absurd ⟨hab1, hab2⟩ (hnomatch a0 ha0)
      · rcases List.mem_map.mp hb with ⟨b0, hb0, rfl⟩
        rw [List.mem_singleton.mp ha] at hab1 hab2
        rw [clearFlag_start] at hab1
        rw [clearFlag_end] at hab2
        exact absurd ⟨hab1.symm, hab2.symm⟩ (hnomatch b0 hb0)
      · rw [List.mem_singleton.mp ha, List.mem_singleton.mp hb]
    · intro a ha b hb hac hbc
      obtain ⟨w, _, _, _, _, huniq⟩ := hpost
      rw [huniq a ha hac, huniq b hb hbc]
    · intro a ha
      rcases List.mem_append.mp ha with ha | ha
      · rcases List.mem_map.mp ha with ⟨a0, ha0, rfl⟩
        rw [clearFlag_id]
        exact Nat.lt_succ_of_lt (hlt a0 ha0)
      · rw [List.mem_singleton.mp ha]
        exact Nat.lt_succ_self _
  · -- found
    obtain ⟨hpmem, hps, hpe⟩ := find?_period_some hf
    rcases hc : p.is_current with _ | _
    · -- found but stale: clear everywhere, set the found row current
      simp only [get_or_create_billing_period, hf]
      rw [if_neg (by simp [hc])]
      have hpost : UniqueCurrentFor
          ⟨st.periods.map (setFlag p.id), st.nextId⟩ s e := by
        refine ⟨setFlag p.id p, List.mem_map_of_mem _ hpmem, ?_, ?_, ?_, ?_⟩
        · exact (setFlag_current_iff p.id p).mpr rfl
        · rw [setFlag_start]
          exact hps
        · rw [setFlag_end]
          exact hpe
        · intro q hq hqc
          rcases List.mem_map.mp hq with ⟨q0, hq0, rfl⟩
          rw [setFlag_current_iff] at hqc
          rw [hid q0 hq0 p hpmem hqc]
      refine ⟨⟨?_, ?_, ?_, ?_⟩, hpost⟩
      · intro a ha b hb hab
        rcases List.mem_map.mp ha with ⟨a0, ha0, rfl⟩
        rcases List.mem_map.mp hb with ⟨b0, hb0, rfl⟩
        rw [setFlag_id, setFlag_id] at hab
        rw [hid a0 ha0 b0 hb0 hab]
      · intro a ha b hb hab1 hab2
        rcases List.mem_map.mp ha with ⟨a0, ha0, rfl⟩
        rcases List.mem_map.mp hb with ⟨b0, hb0, rfl⟩
        rw [setFlag_start, setFlag_start] at hab1
        rw [setFlag_end, setFlag_end] at hab2
        rw [hwin a0 ha0 b0 hb0 hab1 hab2]
      · intro a ha b hb hac hbc
        obtain ⟨w, _, _, _, _, huniq⟩ := hpost
        rw [huniq a ha hac, huniq b hb hbc]
      · intro a ha
        rcases List.mem_map.mp ha with ⟨a0, ha0, rfl⟩
        rw [setFlag_id]
        exact hlt a0 ha0
    · -- found and already current: no write
      simp only [get_or_create_billing_period, hf]
      rw [if_pos hc]
      exact ⟨⟨hid, hwin, hcur, hlt⟩,
        ⟨p, hpmem, hc, hps, hpe, fun q hq hqc => hcur q hq p hpmem hqc hc⟩⟩

theorem runPeriodCalls_inv (ws : List (Int × Int)) (st : PeriodTable)
    (h : PeriodInv st) : PeriodInv (runPeriodCalls st ws) := by
  induction ws generalizing st with
  | nil => exact h
  | cons w ws ih =>
    simp only [runPeriodCalls, List.foldl_cons]
    exact ih _ (period_step st w.1 w.2 h).1

/-! Helper lemmas for the fact upserts. -/

theorem serviceKeyMatches_update (sid pid : Nat) (r : ServiceCost) (a : Int)
    (c : String) :
    serviceKeyMatches sid pid { r with cost_amount := a, currency_code := c } =
      serviceKeyMatches sid pid r := rfl

theorem lookupS_upsert (tbl : List ServiceCost) (sid pid : Nat) (a : Int)
    (c : String) :
    lookupS (upsert_service_cost tbl sid pid a c) sid pid =
      some { service_id := sid, billing_period_id := pid,
             cost_amount := a, currency_code := c } := by
  induction tbl with
  | nil =>
    have hpos : serviceKeyMatches sid pid
        { service_id := sid, billing_period_id := pid,
          cost_amount := a, currency_code := c } = true := by
      simp [serviceKeyMatches]
    simp only [upsert_service_cost, lookupS]
    rw [List.find?_cons_of_pos _ hpos]
  | cons r rest ih =>
    cases hsm : serviceKeyMatches sid pid r with
    | true =>
      have hkey : r.service_id = sid ∧ r.billing_period_id = pid := by
        simpa [serviceKeyMatches, Bool.and_eq_true, beq_iff_eq] using hsm
      have hpos : serviceKeyMatches sid pid
          { r with cost_amount := a, currency_code := c } = true := by
        rw [serviceKeyMatches_update]
        exact hsm
      simp only [upsert_service_cost, if_pos hsm, lookupS]
      rw [List.find?_cons_of_pos _ hpos]
      rcases r with ⟨s0, p0, a0, c0⟩
      obtain ⟨hs, hp⟩ := hkey
      subst hs
      subst hp
      rfl
    | false =>
      have hneg : ¬ serviceKeyMatches sid pid r = true := by simp [hsm]
      simp only [upsert_service_cost, if_neg hneg, lookupS]
      rw [List.find?_cons_of_neg _ hneg]
      exact ih

theorem upsertS_of_absent (tbl : List ServiceCost) (sid pid : Nat) (a : Int)
    (c : String) (h : ∀ r ∈ tbl, serviceKeyMatches sid pid r = false) :
    upsert_service_cost tbl sid pid a c =
      tbl ++ [{ service_id := sid, billing_period_id := pid,
                cost_amount := a, currency_code := c }] := by
  induction tbl with
  | nil => rfl
  | cons r rest ih =>
    have hneg : ¬ serviceKeyMatches sid pid r = true := by
      simp [h r (List.mem_cons_self r rest)]
    simp only [upsert_service_cost, if_neg hneg, List.cons_append]
    rw [ih (fun x hx => h x (List.mem_cons_of_mem r hx))]

theorem length_upsertS_of_present (tbl : List ServiceCost) (sid pid : Nat)
    (a : Int) (c : String) (r : ServiceCost)
    (h : lookupS tbl sid pid = some r) :
    (upsert_service_cost tbl sid pid a c).length = tbl.length := by
  induction tbl with
  | nil => simp [lookupS] at h
  | cons x rest ih =>
    cases hsm : serviceKeyMatches sid pid x with
    | true => simp [upsert_service_cost, if_pos hsm]
    | false =>
      have hneg : ¬ serviceKeyMatches sid pid x = true := by simp [hsm]
      have h2 : lookupS rest sid pid = some r := by
        simpa only [lookupS, List.find?_cons_of_neg _ hneg] using h
      simp only [upsert_service_cost, if_neg hneg, List.length_cons]
      rw [ih h2]

theorem keyCountS_upsert (tbl : List ServiceCost) (sid pid : Nat) (a : Int)
    (c : String) :
    keyCountS (upsert_service_cost tbl sid pid a c) sid pid =
      if keyCountS tbl sid pid = 0 then 1 else keyCountS tbl sid pid := by
  induction tbl with
  | nil => simp [keyCountS, upsert_service_cost, List.filter, serviceKeyMatches]
  | cons r rest ih =>
    cases hsm : serviceKeyMatches sid pid r with
    | true =>
      have hpos : serviceKeyMatches sid pid
          { r with cost_amount := a, currency_code := c } = true := by
        rw [serviceKeyMatches_update]
        exact hsm
      simp only [keyCountS, upsert_service_cost, if_pos hsm]
      rw [List.filter_cons_of_pos hpos, List.filter_cons_of_pos hsm]
      simp
    | false =>
      have hneg : ¬ serviceKeyMatches sid pid r = true := by simp [hsm]
      simp only [keyCountS, upsert_service_cost, if_neg hneg]
      rw [List.filter_cons_of_neg hneg, List.filter_cons_of_neg hneg]
      simpa only [keyCountS] using ih

theorem upsertS_filter_other (tbl : List ServiceCost) (sid pid : Nat) (a : Int)
    (c : String) :
    (upsert_service_cost tbl sid pid a c).filter
        (fun r => !(serviceKeyMatches sid pid r)) =
      tbl.filter (fun r => !(serviceKeyMatches sid pid r)) := by
  induction tbl with
  | nil => simp [upsert_service_cost, List.filter, serviceKeyMatches]
  | cons r rest ih =>
    cases hsm : serviceKeyMatches sid pid r with
    | true =>
      simp only [upsert_service_cost, if_pos hsm]
      simp [List.filter_cons, serviceKeyMatches_update, hsm]
    | false =>
      have hneg : ¬ serviceKeyMatches sid pid r = true := by simp [hsm]
      simp only [upsert_service_cost, if_neg hneg]
      simp [List.filter_cons, hsm, ih]

theorem dailyKeyMatches_update (ud : Ymd) (pid : Nat) (r : DailyCost) (a : Int)
    (c : String) :
    dailyKeyMatches ud pid { r with cost_amount := a, currency_code := c } =
      dailyKeyMatches ud pid r := rfl

theorem lookupD_upsert (tbl : List DailyCost) (pid : Nat) (ud : Ymd) (a : Int)
    (c : String) :
    lookupD (upsert_daily_cost tbl pid ud a c) ud pid =
      some { billing_period_id := pid, usage_date := ud,
             cost_amount := a, currency_code := c } := by
  induction tbl with
  | nil =>
    have hpos : dailyKeyMatches ud pid
        { billing_period_id := pid, usage_date := ud,
          cost_amount := a, currency_code := c } = true := by
      simp [dailyKeyMatches]
    simp only [upsert_daily_cost, lookupD]
    rw [List.find?_cons_of_pos _ hpos]
  | cons r rest ih =>
    cases hsm : dailyKeyMatches ud pid r with
    | true =>
      have hkey : r.usage_date = ud ∧ r.billing_period_id = pid := by
        simpa [dailyKeyMatches, Bool.and_eq_true, beq_iff_eq] using hsm
      have hpos : dailyKeyMatches ud pid
          { r with cost_amount := a, currency_code := c } = true := by
        rw [dailyKeyMatches_update]
        exact hsm
      simp only [upsert_daily_cost, if_pos hsm, lookupD]
      rw [List.find?_cons_of_pos _ hpos]
      rcases r with ⟨p0, u0, a0, c0⟩
      obtain ⟨hu, hp⟩ := hkey
      subst hu
      subst hp
      rfl
    | false =>
      have hneg : ¬ dailyKeyMatches ud pid r = true := by simp [hsm]
      simp only [upsert_daily_cost, if_neg hneg, lookupD]
      rw [List.find?_cons_of_neg _ hneg]
      exact ih

theorem upsertD_of_absent (tbl : List DailyCost) (pid : Nat) (ud : Ymd)
    (a : Int) (c : String) (h : ∀ r ∈ tbl, dailyKeyMatches ud pid r = false) :
    upsert_daily_cost tbl pid ud a c =
      tbl ++ [{ billing_period_id := pid, usage_date := ud,
                cost_amount := a, currency_code := c }] := by
  induction tbl with
  | nil => rfl
  | cons r rest ih =>
    have hneg : ¬ dailyKeyMatches ud pid r = true := by
      simp [h r (List.mem_cons_self r rest)]
    simp only [upsert_daily_cost, if_neg hneg, List.cons_append]
    rw [ih (fun x hx => h x (List.mem_cons_of_mem r hx))]

theorem length_upsertD_of_present (tbl : List DailyCost) (pid : Nat) (ud : Ymd)
    (a : Int) (c : String) (r : DailyCost)
    (h : lookupD tbl ud pid = some r) :
    (upsert_daily_cost tbl pid ud a c).length = tbl.length := by
  induction tbl with
  | nil => simp [lookupD] at h
  | cons x rest ih =>
    cases hsm : dailyKeyMatches ud pid x with
    | true => simp [upsert_daily_cost, if_pos hsm]
    | false =>
      have hneg : ¬ dailyKeyMatches ud pid x = true := by simp [hsm]
      have h2 : lookupD rest ud pid = some r := by
        simpa only [lookupD, List.find?_cons_of_neg _ hneg] using h
      simp only [upsert_daily_cost, if_neg hneg, List.length_cons]
      rw [ih h2]

theorem keyCountD_upsert (tbl : List DailyCost) (pid : Nat) (ud : Ymd)
    (a : Int) (c : String) :
    keyCountD (upsert_daily_cost tbl pid ud a c) ud pid =
      if keyCountD tbl ud pid = 0 then 1 else keyCountD tbl ud pid := by
  induction tbl with
  | nil => simp [keyCountD, upsert_daily_cost, List.filter, dailyKeyMatches]
  | cons r rest ih =>
    cases hsm : dailyKeyMatches ud pid r with
    | true =>
      have hpos : dailyKeyMatches ud pid
          { r with cost_amount := a, currency_code := c } = true := by
        rw [dailyKeyMatches_update]
        exact hsm
      simp only [keyCountD, upsert_daily_cost, if_pos hsm]
      rw [List.filter_cons_of_pos hpos, List.filter_cons_of_pos hsm]
      simp
    | false =>
      have hneg : ¬ dailyKeyMatches ud pid r = true := by simp [hsm]
      simp only [keyCountD, upsert_daily_cost, if_neg hneg]
      rw [List.filter_cons_of_neg hneg, List.filter_cons_of_neg hneg]
      simpa only [keyCountD] using ih

theorem upsertD_filter_other (tbl : List DailyCost) (pid : Nat) (ud : Ymd)
    (a : Int) (c : String) :
    (upsert_daily_cost tbl pid ud a c).filter
        (fun r => !(dailyKeyMatches ud pid r)) =
      tbl.filter (fun r => !(dailyKeyMatches ud pid r)) := by
  induction tbl with
  | nil => simp [upsert_daily_cost, List.filter, dailyKeyMatches]
  | cons r rest ih =>
    cases hsm : dailyKeyMatches ud pid r with
    | true =>
      simp only [upsert_daily_cost, if_pos hsm]
      simp [List.filter_cons, dailyKeyMatches_update, hsm]
    | false =>
      have hneg : ¬ dailyKeyMatches ud pid r = true := by simp [hsm]
      simp only [upsert_daily_cost, if_neg hneg]
      simp [List.filter_cons, hsm, ih]

/-! Helper lemmas for the normalizer. -/

theorem dictInsert_of_fresh (d : Dict) (k : String) (v : PyVal)
    (h : ∀ kv ∈ d, kv.1 ≠ k) : dictInsert d k v = d ++ [(k, v)] := by
  have hany : d.any (fun kv => kv.1 == k) = false := by
    rw [List.any_eq_false]
    intro kv hkv
    simp [h kv hkv]
  unfold dictInsert
  rw [if_neg (by simp [hany])]

theorem foldl_dictInsert (ps : List (String × PyVal)) (acc : Dict)
    (hdisj : ∀ kv ∈ ps, ∀ kv2 ∈ acc, kv2.1 ≠ kv.1)
    (hnd : (ps.map Prod.fst).Nodup) :
    ps.foldl (fun d kv => dictInsert d kv.1 kv.2) acc = acc ++ ps := by
  induction ps generalizing acc with
  | nil => simp
  | cons kv rest ih =>
    rcases kv with ⟨k, v⟩
    simp only [List.map_cons] at hnd
    obtain ⟨hknotin, hnd2⟩ := List.nodup_cons.mp hnd
    simp only [List.foldl_cons]
    rw [dictInsert_of_fresh acc k v
      (fun kv2 h2 => hdisj (k, v) (List.mem_cons_self _ _) kv2 h2)]
    rw [ih (acc ++ [(k, v)]) ?disj hnd2]
    · simp
    case disj =>
      intro kv3 h3 kv2 h2
      rcases List.mem_append.mp h2 with h2 | h2
      · exact hdisj kv3 (List.mem_cons_of_mem _ h3) kv2 h2
      · rw [List.mem_singleton.mp h2]
        intro he
        have he2 : k = kv3.1 := he
        refine hknotin ?_
        rw [he2]
        exact List.mem_map_of_mem Prod.fst h3

theorem dictOfPairs_eq_self (ps : List (String × PyVal))
    (hnd : (ps.map Prod.fst).Nodup) : dictOfPairs ps = ps := by
  unfold dictOfPairs
  rw [foldl_dictInsert ps [] (by simp) hnd]
  simp

theorem lookup_self_of_nodup (ps : List (String × PyVal))
    (hnd : (ps.map Prod.fst).Nodup) :
    ∀ p ∈ ps, List.lookup p.1 ps = some p.2 := by
  induction ps with
  | nil => simp
  | cons kv rest ih =>
    rcases kv with ⟨k, v⟩
    simp only [List.map_cons] at hnd
    obtain ⟨hknotin, hnd2⟩ := List.nodup_cons.mp hnd
    intro p hp
    rcases List.mem_cons.mp hp with rfl | hp2
    · simp [List.lookup]
    · have hne : (p.1 == k) = false := by
        simp only [beq_eq_false_iff_ne, ne_eq]
        intro he
        exact hknotin (he ▸ List.mem_map_of_mem Prod.fst hp2)
      simp only [List.lookup, hne]
      exact ih hnd2 p hp2

/-! Claim theorems. -/

/-- C1: starting from any billing-period table that satisfies the schema
constraints of `db/models.py` (unique ids, unique windows) and has at most
one current row, every sequence of `get_or_create_billing_period` calls with
arbitrary windows leaves — after each successful call — exactly one period
with `is_current = true`, and it is the period whose `(start, end)` window
was just requested. -/
theorem C1_current_period_exclusive (st : PeriodTable) (ws : List (Int × Int))
    (s e : Int) (h : PeriodInv st) :
    UniqueCurrentFor (runPeriodCalls st (ws ++ [(s, e)])) s e := by
  have hstep := period_step (runPeriodCalls st ws) s e (runPeriodCalls_inv ws st h)
  have hrw : runPeriodCalls st (ws ++ [(s, e)]) =
      (get_or_create_billing_period (runPeriodCalls st ws) s e).1 := by
    simp [runPeriodCalls, List.foldl_append]
  rw [hrw]
  exact hstep.2

theorem C1_current_period_exclusive_witness :
    UniqueCurrentFor
      (runPeriodCalls ⟨[], 0⟩ ([((0 : Int), (1 : Int))] ++ [((2 : Int), (3 : Int))]))
      2 3 :=
  C1_current_period_exclusive ⟨[], 0⟩ [(0, 1)] 2 3 (by decide)

/-- C2: for both fact tables, upserting an already-present natural key
overwrites `cost_amount` / `currency_code` in place (the row count does not
grow and rows with other keys are untouched), upserting an absent key appends
exactly one new row, and upserting the same key twice leaves — in a table
that respected the unique constraint — exactly one row for that key carrying
the second write's values (last-write-wins). -/
theorem C2_upsert_last_write_wins
    (stbl : List ServiceCost) (sid pid : Nat) (a1 a2 : Int) (c1 c2 : String)
    (dtbl : List DailyCost) (pid2 : Nat) (ud : Ymd) (b1 b2 : Int)
    (e1 e2 : String) :
    ((∀ r, lookupS stbl sid pid = some r →
        (upsert_service_cost stbl sid pid a2 c2).length = stbl.length) ∧
      (lookupS stbl sid pid = Option.none →
        upsert_service_cost stbl sid pid a2 c2 = stbl ++
          [{ service_id := sid, billing_period_id := pid,
             cost_amount := a2, currency_code := c2 }]) ∧
      (upsert_service_cost stbl sid pid a2 c2).filter
          (fun r => !(serviceKeyMatches sid pid r)) =
        stbl.filter (fun r => !(serviceKeyMatches sid pid r)) ∧
      lookupS (upsert_service_cost (upsert_service_cost stbl sid pid a1 c1)
          sid pid a2 c2) sid pid =
        some { service_id := sid, billing_period_id := pid,
               cost_amount := a2, currency_code := c2 } ∧
      (keyCountS stbl sid pid ≤ 1 →
        keyCountS (upsert_service_cost (upsert_service_cost stbl sid pid a1 c1)
          sid pid a2 c2) sid pid = 1)) ∧
    ((∀ r, lookupD dtbl ud pid2 = some r →
        (upsert_daily_cost dtbl pid2 ud b2 e2).length = dtbl.length) ∧
      (lookupD dtbl ud pid2 = Option.none →
        upsert_daily_cost dtbl pid2 ud b2 e2 = dtbl ++
          [{ billing_period_id := pid2, usage_date := ud,
             cost_amount := b2, currency_code := e2 }]) ∧
      (upsert_daily_cost dtbl pid2 ud b2 e2).filter
          (fun r => !(dailyKeyMatches ud pid2 r)) =
        dtbl.filter (fun r => !(dailyKeyMatches ud pid2 r)) ∧
      lookupD (upsert_daily_cost (upsert_daily_cost dtbl pid2 ud b1 e1)
          pid2 ud b2 e2) ud pid2 =
        some { billing_period_id := pid2, usage_date := ud,
               cost_amount := b2, currency_code := e2 } ∧
      (keyCountD dtbl ud pid2 ≤ 1 →
        keyCountD (upsert_daily_cost (upsert_daily_cost dtbl pid2 ud b1 e1)
          pid2 ud b2 e2) ud pid2 = 1)) := by
  refine ⟨⟨?_, ?_, ?_, ?_, ?_⟩, ?_, ?_, ?_, ?_, ?_⟩
  · intro r h
    exact length_upsertS_of_present stbl sid pid a2 c2 r h
  · intro h
    exact upsertS_of_absent stbl sid pid a2 c2
      (fun r hr => by simpa using List.find?_eq_none.mp h r hr)
  · exact upsertS_filter_other stbl sid pid a2 c2
  · exact lookupS_upsert _ sid pid a2 c2
  · intro hle
    rw [keyCountS_upsert, keyCountS_upsert]
    split_ifs <;> omega
  · intro r h
    exact length_upsertD_of_present dtbl pid2 ud b2 e2 r h
  · intro h
    exact upsertD_of_absent dtbl pid2 ud b2 e2
      (fun r hr => by simpa using List.find?_eq_none.mp h r hr)
  · exact upsertD_filter_other dtbl pid2 ud b2 e2
  · exact lookupD_upsert _ pid2 ud b2 e2
  · intro hle
    rw [keyCountD_upsert, keyCountD_upsert]
    split_ifs <;> omega

theorem C2_upsert_last_write_wins_witness :
    ((∀ r, lookupS [] 1 2 = some r →
        (upsert_service_cost [] 1 2 700 "EUR").length =
          ([] : List ServiceCost).length) ∧
      (lookupS [] 1 2 = Option.none →
        upsert_service_cost [] 1 2 700 "EUR" = [] ++
          [{ service_id := 1, billing_period_id := 2,
             cost_amount := 700, currency_code := "EUR" }]) ∧
      (upsert_service_cost [] 1 2 700 "EUR").filter
          (fun r => !(serviceKeyMatches 1 2 r)) =
        List.filter (fun r => !(serviceKeyMatches 1 2 r)) [] ∧
      lookupS (upsert_service_cost (upsert_service_cost [] 1 2 500 "USD")
          1 2 700 "EUR") 1 2 =
        some { service_id := 1, billing_period_id := 2,
               cost_amount := 700, currency_code := "EUR" } ∧
      (keyCountS [] 1 2 ≤ 1 →
        keyCountS (upsert_service_cost (upsert_service_cost [] 1 2 500 "USD")
          1 2 700 "EUR") 1 2 = 1)) ∧
    ((∀ r, lookupD [] ⟨2024, 1, 15⟩ 9 = some r →
        (upsert_daily_cost [] 9 ⟨2024, 1, 15⟩ 200 "INR").length =
          ([] : List DailyCost).length) ∧
      (lookupD [] ⟨2024, 1, 15⟩ 9 = Option.none →
        upsert_daily_cost [] 9 ⟨2024, 1, 15⟩ 200 "INR" = [] ++
          [{ billing_period_id := 9, usage_date := ⟨2024, 1, 15⟩,
             cost_amount := 200, currency_code := "INR" }]) ∧
      (upsert_daily_cost [] 9 ⟨2024, 1, 15⟩ 200 "INR").filter
          (fun r => !(dailyKeyMatches ⟨2024, 1, 15⟩ 9 r)) =
        List.filter (fun r => !(dailyKeyMatches ⟨2024, 1, 15⟩ 9 r)) [] ∧
      lookupD (upsert_daily_cost (upsert_daily_cost [] 9 ⟨2024, 1, 15⟩ 100 "USD")
          9 ⟨2024, 1, 15⟩ 200 "INR") ⟨2024, 1, 15⟩ 9 =
        some { billing_period_id := 9, usage_date := ⟨2024, 1, 15⟩,
               cost_amount := 200, currency_code := "INR" } ∧
      (keyCountD [] ⟨2024, 1, 15⟩ 9 ≤ 1 →
        keyCountD (upsert_daily_cost (upsert_daily_cost [] 9 ⟨2024, 1, 15⟩ 100 "USD")
          9 ⟨2024, 1, 15⟩ 200 "INR") ⟨2024, 1, 15⟩ 9 = 1)) :=
  C2_upsert_last_write_wins [] 1 2 500 700 "USD" "EUR" [] 9 ⟨2024, 1, 15⟩
    100 200 "USD" "INR"

/-- C3: the claim says a `DataValidationError` is raised iff zero records
survive and that per-record failures never abort a batch.  The code disagrees
twice: `preprocess_daily_costs` never passes the required `service_name` to
`DailyCostRecord`, so even a batch of two perfectly well-formed daily rows
loses every record and dies with `DataValidationError`; and a Cost string
that fails decimal parsing raises `decimal.InvalidOperation`, which the
per-record `except (ValueError, TypeError)` clause does not catch, aborting a
service batch that still contained a valid record. -/
theorem C3_daily_batch_always_rejected :
    preprocess_daily_costs
      [[("UsageDate", .int 20240115), ("Cost", .int 5), ("Currency", .str "usd")],
       [("UsageDate", .int 20240116), ("Cost", .int 7), ("Currency", .str "usd")]]
      0 1 = .error .dataValidation ∧
    preprocess_service_costs
      [[("Cost", .str "abc")],
       [("ServiceName", .str "VM"), ("Cost", .int 1), ("Currency", .str "USD")]]
      0 1 = .error .invalidOperation ∧
    Err.invalidOperation.caughtPerRecord = false :=
  ⟨rfl, rfl, rfl⟩

/-- C4: a `DataProcessingError` from normalization is caught by
`fetch_process_save`, merely logged, and the run then dies with
`UnboundLocalError` when the persistence block references the unbound
`billing_start` — the processing error is swallowed, not surfaced.  On the
success path the triple `(records, billing_period_id, saved_count)` is
returned as the claim says. -/
theorem C4_processing_error_swallowed :
    fetch_process_save (α := List CostRecord) (.ok ⟨Option.none, []⟩)
      preprocess_service_costs 0 1 List.length ⟨[], 0⟩ =
      .error .unboundLocal ∧
    Err.unboundLocal ≠ Err.dataProcessing ∧
    fetch_process_save (α := List CostRecord)
      (.ok ⟨some ["ServiceName", "Cost", "Currency"],
            [[.str "VM", .num 105 1, .str "usd"]]⟩)
      preprocess_service_costs 0 1 List.length ⟨[], 0⟩ =
      .ok ([{ service_name := "VM", cost := 1050, currency := "USD",
              billing_period_start := 0, billing_period_end := 1 }], 0, 1) :=
  ⟨rfl, by decide, rfl⟩

/-- C5 counterexample: a two-column result with a one-element row does not
fail — `dict(zip(columns, row))` silently truncates to the shorter side, so
the claim's "fails on any row whose arity does not match" is false. -/
theorem C5_arity_mismatch_not_error :
    normalize_cost_response ⟨some ["a", "b"], [[PyVal.int 1]]⟩ =
      .ok [[("a", PyVal.int 1)]] := rfl

/-- C5 amended: a missing `columns` attribute raises a ProcessingError; with
columns present the normalizer returns one mapping per row in row order, and
whenever a row's arity does match the column count (columns being distinct),
the mapping sends each column name to the positionally aligned value.  A row
with mismatched arity is silently zip-truncated, not an error. -/
theorem C5_normalize_amended (cols : List String) (rows : List (List PyVal))
    (hnd : cols.Nodup) :
    normalize_cost_response ⟨Option.none, rows⟩ = .error .dataProcessing ∧
    ∃ out, normalize_cost_response ⟨some cols, rows⟩ = .ok out ∧
      out.length = rows.length ∧
      List.Forall₂ (fun row mp => row.length = cols.length →
        ∀ p ∈ cols.zip row, List.lookup p.1 mp = some p.2) rows out := by
  refine ⟨rfl, rows.map (fun row => dictOfPairs (cols.zip row)), rfl, by simp, ?_⟩
  rw [List.forall₂_map_right_iff, List.forall₂_same]
  intro row hrow hlen p hp
  have hkeys : (cols.zip row).map Prod.fst = cols :=
    List.map_fst_zip cols row (le_of_eq hlen.symm)
  have hnd2 : ((cols.zip row).map Prod.fst).Nodup := by
    rw [hkeys]
    exact hnd
  rw [dictOfPairs_eq_self _ hnd2]
  exact lookup_self_of_nodup _ hnd2 p hp

theorem C5_normalize_amended_witness :
    normalize_cost_response ⟨Option.none, [[PyVal.int 3]]⟩ =
      .error .dataProcessing ∧
    ∃ out, normalize_cost_response ⟨some ["a"], [[PyVal.int 3]]⟩ = .ok out ∧
      out.length = [[PyVal.int 3]].length ∧
      List.Forall₂ (fun row mp => row.length = ["a"].length →
        ∀ p ∈ List.zip ["a"] row, List.lookup p.1 mp = some p.2)
        [[PyVal.int 3]] out :=
  C5_normalize_amended ["a"] [[PyVal.int 3]] (by decide)

/-- C6 counterexample: `Decimal.quantize` defaults to ROUND_HALF_EVEN, so
12.345 normalizes to 12.34, not the 12.35 the claim states; and the
uncoercible string "abc" raises `decimal.InvalidOperation`, which the
per-record handler does not catch. -/
theorem C6_half_even_not_half_up :
    validate_cost_amount (.num 12345 3) = .ok (.fin 1234) ∧
    PyDec.fin 1234 ≠ PyDec.fin 1235 ∧
    serviceRecOf [("ServiceName", .str "VM"), ("Cost", .str "abc"),
      ("Currency", .str "usd")] 0 1 = .error .invalidOperation ∧
    Err.invalidOperation.caughtPerRecord = false :=
  ⟨rfl, by decide, rfl, rfl⟩

/-- C6 amended: a coercible cost is quantized to two digits with
ROUND_HALF_EVEN (12.345 → 12.34, 12.344 → 12.34, 12.355 → 12.36, "7" → 7.00)
and carried into the validated record together with the uppercased currency
("inr" → "INR"); a negative amount or a `None` cost makes record validation
fail with an exception the per-record handler catches, while an uncoercible
string raises `InvalidOperation`, which it does not catch (see C3). -/
theorem C6_amount_normalization_amended :
    validate_cost_amount (.num 12345 3) = .ok (.fin 1234) ∧
    validate_cost_amount (.num 12344 3) = .ok (.fin 1234) ∧
    validate_cost_amount (.num 12355 3) = .ok (.fin 1236) ∧
    validate_cost_amount (.str "7") = .ok (.fin 700) ∧
    validate_currency_code "inr" = "INR" ∧
    (∀ (name cur : String) (m c : Int) (s : Nat) (ps pe : Int),
      validate_cost_amount (.num m s) = .ok (.fin c) → 0 ≤ c →
      mkCostRecord (.str name) (.num m s) (.str cur) ps pe =
        .ok { service_name := validate_service_name name, cost := c,
              currency := validate_currency_code cur,
              billing_period_start := ps, billing_period_end := pe }) ∧
    (∀ (v : PyVal) (c : Int) (nameV curV : PyVal) (ps pe : Int),
      validate_cost_amount v = .ok (.fin c) → c < 0 →
      mkCostRecord nameV v curV ps pe = .error .valueError ∧
      Err.valueError.caughtPerRecord = true) ∧
    (∀ (nameV curV : PyVal) (ps pe : Int),
      mkCostRecord nameV .none curV ps pe = .error .typeError ∧
      Err.typeError.caughtPerRecord = true) := by
  refine ⟨rfl, rfl, rfl, rfl, rfl, ?_, ?_, ?_⟩
  · intro name cur m c s ps pe hv hge
    have hcf : costField (.num m s) = .ok c := by
      simp [costField, hv, hge]
    simp [mkCostRecord, hcf, serviceNameField, currencyField]
  · intro v c nameV curV ps pe hv hneg
    have hcf : costField v = .error .valueError := by
      simp only [costField, hv]
      rw [if_neg (not_le.mpr hneg)]
    refine ⟨?_, rfl⟩
    simp [mkCostRecord, hcf]
  · intro nameV curV ps pe
    exact ⟨rfl, rfl⟩

theorem C6_amount_normalization_amended_witness :
    mkCostRecord (.str "VM") (.num 12345 3) (.str "inr") 0 1 =
      .ok { service_name := validate_service_name "VM", cost := 1234,
            currency := validate_currency_code "inr",
            billing_period_start := 0, billing_period_end := 1 } :=
  C6_amount_normalization_amended.2.2.2.2.2.1 "VM" "inr" 12345 1234 3 0 1 rfl
    (by decide)

/-- C7: `20240115` does parse to 2024-01-15, but the claim's other halves
fail on the code: the strptime pattern `%Y%m%d` is lenient, so the 7-digit
value `2024011` parses to 2024-01-01 instead of being rejected; and because
`preprocess_daily_costs` never supplies the `service_name` that
`DailyCostRecord` requires, every daily record is rejected regardless of its
date, so even this sole well-formed record makes the batch raise
`DataValidationError`. -/
theorem C7_date_parse_behavior :
    strptimeYmd (pyStr (.int 20240115)) = some ⟨2024, 1, 15⟩ ∧
    strptimeYmd (pyStr (.int 2024011)) = some ⟨2024, 1, 1⟩ ∧
    preprocess_daily_costs [[("UsageDate", .int 20240115), ("Cost", .int 5),
      ("Currency", .str "inr")]] 0 1 = .error .dataValidation :=
  ⟨rfl, rfl, rfl⟩

/-- C8 counterexample: with an empty table and a concurrent insert of "VM"
landing between the lookup and the flush, `get_or_create_azure_service`
propagates the unique-constraint violation instead of re-reading and
returning the existing row, contradicting the claim. -/
theorem C8_race_propagates_error :
    get_or_create_azure_service ⟨[], 0⟩ [{ id := 0, name := "VM" }] "VM" =
      .error .integrityError := rfl

/-- C8 amended: `get_or_create_azure_service` has no duplicate-key handling:
when the lookup misses and a concurrently committed row with the same name is
visible at flush time, the `IntegrityError` propagates to the caller as a
hard error (no re-read); only when no concurrent duplicate exists does the
insert succeed. -/
theorem C8_service_race_amended (tbl : ServiceTable) (conc : List AzureService)
    (n : String) (hmiss : ∀ s ∈ tbl.services, s.name ≠ n) :
    ((∃ s ∈ conc, s.name = n) →
      get_or_create_azure_service tbl conc n = .error .integrityError) ∧
    ((∀ s ∈ conc, s.name ≠ n) →
      get_or_create_azure_service tbl conc n =
        .ok ({ services := (tbl.services ++ conc) ++
                 [{ id := tbl.nextId, name := n }],
               nextId := tbl.nextId + 1 },
             { id := tbl.nextId, name := n })) := by
  have hfind : tbl.services.find? (fun s => s.name == n) = Option.none := by
    rw [List.find?_eq_none]
    intro s hs
    simp [hmiss s hs]
  constructor
  · rintro ⟨s, hs, hsn⟩
    have hany : (tbl.services ++ conc).any (fun s => s.name == n) = true := by
      rw [List.any_eq_true]
      exact ⟨s, List.mem_append.mpr (Or.inr hs), by simp [hsn]⟩
    simp only [get_or_create_azure_service, hfind]
    rw [if_pos hany]
  · intro hnone
    have hany : (tbl.services ++ conc).any (fun s => s.name == n) = false := by
      rw [List.any_eq_false]
      intro s hs
      rcases List.mem_append.mp hs with hs | hs
      · simp [hmiss s hs]
      · simp [hnone s hs]
    simp only [get_or_create_azure_service, hfind]
    rw [if_neg (by simp [hany])]

theorem C8_service_race_amended_witness :
    get_or_create_azure_service ⟨[], 0⟩ [{ id := 5, name := "VM" }] "VM" =
      .error .integrityError :=
  (C8_service_race_amended ⟨[], 0⟩ [{ id := 5, name := "VM" }] "VM"
      (by simp)).1 ⟨{ id := 5, name := "VM" }, by simp, rfl⟩

/-- C9 counterexample: a whitespace-only service name is truthy, so the
validator strips it to the empty string and keeps it — it does not become the
"Unknown" sentinel the claim promises. -/
theorem C9_whitespace_name_kept :
    serviceRecOf [("ServiceName", .str "   "), ("Cost", .int 1),
      ("Currency", .str "USD")] 0 1 =
    .ok { service_name := "", cost := 100, currency := "USD",
          billing_period_start := 0, billing_period_end := 1 } ∧
    ("" : String) ≠ "Unknown" :=
  ⟨rfl, by decide⟩

/-- C9 amended: the sentinel is substituted only when the raw name is falsy
before trimming — the empty string, or an absent key (whose `.get` default is
already "Unknown"); any non-empty name, a whitespace-only one included, is
stripped, so whitespace-only input yields the empty string, not "Unknown". -/
theorem C9_service_name_amended :
    validate_service_name "" = "Unknown" ∧
    (∀ s : String, s ≠ "" → validate_service_name s = pyStrip s) ∧
    validate_service_name "   " = "" ∧
    (∀ (d : Dict) (ps pe : Int), List.lookup "ServiceName" d = Option.none →
      ∀ rec, serviceRecOf d ps pe = .ok rec → rec.service_name = "Unknown") := by
  refine ⟨rfl, ?_, rfl, ?_⟩
  · intro s hs
    simp [validate_service_name, hs]
  · intro d ps pe hlook rec hrec
    have hget : dictGet d "ServiceName" (.str "Unknown") = .str "Unknown" := by
      simp [dictGet, hlook]
    simp only [serviceRecOf, hget] at hrec
    rcases hcf : costField (dictGet d "Cost" (.int 0)) with e | cents
    · simp only [mkCostRecord, hcf] at hrec
      split_ifs at hrec
    · simp only [mkCostRecord, hcf] at hrec
      rcases hcur : currencyField (dictGet d "Currency" (.str "INR")) with e2 | cur
      · simp only [serviceNameField, hcur] at hrec
        simp at hrec
      · simp only [serviceNameField, hcur] at hrec
        injection hrec with h
        rw [← h]
        rfl

theorem C9_service_name_amended_witness :
    validate_service_name "  ab  " = pyStrip "  ab  " :=
  C9_service_name_amended.2.1 "  ab  " (by decide)

/-- C10: a mapping with no "Cost" key is not rejected for its cost — the
`.get` default 0 quantizes to 0.00 and, with the other fields well-formed,
the validated record carries cost 0.00, indistinguishable from a reported
zero. -/
theorem C10_missing_cost_defaults_zero (d : Dict) (ps pe : Int)
    (name cur : String)
    (hc : List.lookup "Cost" d = Option.none)
    (hn : dictGet d "ServiceName" (.str "Unknown") = .str name)
    (hcur : dictGet d "Currency" (.str "INR") = .str cur) :
    validate_cost_amount (dictGet d "Cost" (.int 0)) = .ok (.fin 0) ∧
    serviceRecOf d ps pe =
      .ok { service_name := validate_service_name name, cost := 0,
            currency := validate_currency_code cur,
            billing_period_start := ps, billing_period_end := pe } := by
  have h0 : dictGet d "Cost" (.int 0) = .int 0 := by
    simp [dictGet, hc]
  refine ⟨by rw [h0]; rfl, ?_⟩
  simp only [serviceRecOf, h0, hn, hcur]
  rfl

theorem C10_missing_cost_defaults_zero_witness :
    validate_cost_amount (dictGet [("ServiceName", PyVal.str "VM"),
        ("Currency", PyVal.str "usd")] "Cost" (.int 0)) = .ok (.fin 0) ∧
    serviceRecOf [("ServiceName", PyVal.str "VM"), ("Currency", PyVal.str "usd")]
        0 1 =
      .ok { service_name := validate_service_name "VM", cost := 0,
            currency := validate_currency_code "usd",
            billing_period_start := 0, billing_period_end := 1 } :=
  C10_missing_cost_defaults_zero _ 0 1 "VM" "usd" rfl rfl rfl

end AzureCostAnalyzer
